import Mathlib

/-!
Shallow embedding of `ETL-pipeline-TwelveData-no-orchestration/main.py`.

The script pulls price bars and technical indicators from an HTTP API,
normalizes the decoded JSON payloads (`transform_hourly`,
`transform_technical`), ensures two PostgreSQL tables exist
(`create_hourly_table`, `create_technical_table`), and bulk-inserts the
normalized rows (`load_hourly`, `load_technical`); a module-level driver
iterates tickers and indicators with fixed sleeps.

Modelling choices:
- a decoded JSON record is an association list of string keys to string
  values, in insertion order (Python dicts preserve insertion order);
- Python `float(s)` and `int(s)` follow CPython's acceptance grammar
  (surrounding-whitespace stripping, optional sign, underscores between
  digits, scientific notation, case-insensitive inf/infinity/nan); a
  finite float value is modelled exactly as a rational, since the claims
  under study are about which strings convert and to which literal
  decimal value, not about IEEE rounding;
- `datetime.strptime(s, "%Y-%m-%d %H:%M:%S")` follows CPython's
  `_strptime` regex for that format (one-or-two-digit
  month/day/hour/minute/second, a space-padded day, whitespace runs at
  the format's space, whole-string match) plus the `datetime(...)`
  constructor's checks (year ≥ 1, day within the month, second ≤ 59);
- strings are treated as ASCII: the digit and whitespace classes are
  the ASCII ones (the API payloads under study are ASCII);
- Python exceptions become an explicit error type: `keyError k` for a
  failed dict lookup, `parseError` for the `ValueError` raised by
  `strptime`, `valueError k` for the `ValueError` raised by `float`/`int`
  on field `k`, `indexError` for a list index out of range;
- the database is a state record holding the two optional table schemas
  and their rows; an `INSERT` hitting a duplicate primary key fails with
  a constraint violation (the DDL in the source declares the primary
  keys, and the source specifies no conflict clause).
-/

/-- Ticks of the wall clock are irrelevant; a parsed `%Y-%m-%d %H:%M:%S`
value is just its six calendar components. -/
structure Timestamp where
  year : Nat
  month : Nat
  day : Nat
  hour : Nat
  minute : Nat
  second : Nat
deriving DecidableEq, Repr

/-- Value of a decimal-digit string, most significant first. -/
def digitsToNat (l : List Char) : Nat :=
  l.foldl (fun n c => 10 * n + (c.toNat - 48)) 0

/-- Gregorian leap-year test, as validated by `strptime`. -/
def isLeap (y : Nat) : Bool :=
  (y % 4 = 0 && y % 100 ≠ 0) || y % 400 = 0

/-- Number of days in a month, used by `strptime` to validate the day. -/
def daysInMonth (y m : Nat) : Nat :=
  if m = 2 then (if isLeap y then 29 else 28)
  else if [4, 6, 9, 11].contains m then 30
  else 31

/-- ASCII whitespace: the class matched by the regex `\s` and stripped
by `float`/`int` (payload strings are modelled as ASCII throughout). -/
def isWs (c : Char) : Bool :=
  c = ' ' || c = '\t' || c = '\n' || c = '\r' || c = '\x0b' || c = '\x0c'

/-- The leading- and trailing-whitespace stripping performed by Python
`float(s)` and `int(s)`. -/
def stripWs (cs : List Char) : List Char :=
  ((cs.dropWhile isWs).reverse.dropWhile isWs).reverse

/-- An ASCII decimal digit's value. -/
def digit? (c : Char) : Option Nat :=
  if c.isDigit then some (c.toNat - 48) else none

/-- The `%Y` directive: exactly four digits (CPython's `_strptime` regex
fragment for `%Y`). -/
def parseYear : List Char → Option (Nat × List Char)
  | y1 :: y2 :: y3 :: y4 :: rest => do
    let d1 ← digit? y1
    let d2 ← digit? y2
    let d3 ← digit? y3
    let d4 ← digit? y4
    some (1000 * d1 + 100 * d2 + 10 * d3 + d4, rest)
  | _ => none

/-- A one-or-two-digit numeric directive (`%m`, `%d`, `%H`, `%M`, `%S`):
CPython's regex alternations consume two digits when two are present
(the separator that follows is never a digit, so a one-digit reading of
a two-digit run can never complete the match) and one digit otherwise;
the value must lie in `[minv, maxv]`. -/
def fieldNum (minv maxv : Nat) : List Char → Option (Nat × List Char)
  | c1 :: c2 :: rest =>
    match digit? c1, digit? c2 with
    | some d1, some d2 =>
      let v := 10 * d1 + d2
      if minv ≤ v && v ≤ maxv then some (v, rest) else none
    | some d1, none =>
      if minv ≤ d1 && d1 ≤ maxv then some (d1, c2 :: rest) else none
    | none, _ => none
  | [c1] =>
    match digit? c1 with
    | some d1 => if minv ≤ d1 && d1 ≤ maxv then some (d1, []) else none
    | none => none
  | [] => none

/-- The `%d` directive additionally accepts a space-padded single digit
(the ` [1-9]` alternative in CPython's regex). -/
def parseDay (cs : List Char) : Option (Nat × List Char) :=
  match cs with
  | ' ' :: c :: rest =>
    match digit? c with
    | some d => if 1 ≤ d then some (d, rest) else none
    | none => none
  | _ => fieldNum 1 31 cs

/-- Whitespace inside the format string is compiled by `_strptime` to
`\s+`: one or more whitespace characters. -/
def skipWs1 : List Char → Option (List Char)
  | c :: rest => if isWs c then some (rest.dropWhile isWs) else none
  | [] => none

/-- A literal separator character of the format string. -/
def expectChar (c : Char) : List Char → Option (List Char)
  | c2 :: rest => if c2 = c then some rest else none
  | [] => none

/-- Model of `datetime.strptime(s, "%Y-%m-%d %H:%M:%S")`, following
CPython's `_strptime`: four year digits, one-or-two-digit month 1-12,
one-or-two-digit (or space-padded) day 1-31, a whitespace run, then
one-or-two-digit hour ≤ 23, minute ≤ 59 and second, matched against the
whole string (anything left over is "unconverted data remains"); the
`datetime(...)` construction then requires year ≥ 1, day ≤ days in the
month, and second ≤ 59 (the regex's 60/61 leap seconds are rejected
there). `none` models the `ValueError` strptime raises. -/
def parseDatetime (s : String) : Option Timestamp := do
  let (y, r1) ← parseYear s.data
  let r2 ← expectChar '-' r1
  let (mo, r3) ← fieldNum 1 12 r2
  let r4 ← expectChar '-' r3
  let (d, r5) ← parseDay r4
  let r6 ← skipWs1 r5
  let (h, r7) ← fieldNum 0 23 r6
  let r8 ← expectChar ':' r7
  let (mi, r9) ← fieldNum 0 59 r8
  let r10 ← expectChar ':' r9
  let (se, r11) ← fieldNum 0 61 r10
  if r11 = [] && 1 ≤ y && d ≤ daysInMonth y mo && se ≤ 59 then
    some ⟨y, mo, d, h, mi, se⟩
  else none

/-- Strip an optional leading sign, returning whether it was a minus. -/
def stripSign : List Char → Bool × List Char
  | '-' :: rest => (true, rest)
  | '+' :: rest => (false, rest)
  | rest => (false, rest)

/-- The result of a successful Python `float(s)`: a finite value
(modelled exactly as a rational), an infinity, or a NaN. -/
inductive PyFloat
  | fin (q : Rat)
  | inf (neg : Bool)
  | nan
deriving DecidableEq, Repr

/-- No two consecutive underscores. -/
def noDoubleUnd : List Char → Bool
  | '_' :: '_' :: _ => false
  | _ :: rest => noDoubleUnd rest
  | [] => true

/-- A digit group as accepted by CPython's number parsers since PEP 515:
digits with single underscores strictly between digits. -/
def validGroup (cs : List Char) : Bool :=
  match cs with
  | [] => false
  | c :: _ =>
    c.isDigit && cs.getLast?.all Char.isDigit && noDoubleUnd cs &&
      cs.all (fun x => x.isDigit || x = '_')

/-- Remove the underscores of a digit group. -/
def stripUnd (cs : List Char) : List Char := cs.filter (fun c => c ≠ '_')

/-- Exact value of `± ip.fp × 10^e` (built with `mkRat` and integer
arithmetic only). -/
def ratVal (neg : Bool) (ip fp : List Char) (e : Int) : Rat :=
  let m : Nat := digitsToNat ip * 10 ^ fp.length + digitsToNat fp
  let num : Int := if neg then -(m : Int) else (m : Int)
  if 0 ≤ e then mkRat (num * 10 ^ e.toNat) (10 ^ fp.length)
  else mkRat num (10 ^ fp.length * 10 ^ e.natAbs)

/-- The exponent of a float literal: an optional sign, then a digit
group. -/
def parseExp (cs : List Char) : Option Int :=
  let (neg, cs2) := stripSign cs
  if validGroup cs2 then
    some (if neg then -(digitsToNat (stripUnd cs2) : Int)
      else (digitsToNat (stripUnd cs2) : Int))
  else none

/-- The finite-number forms of `float(s)` after sign stripping:
`digits`, `digits.`, `.digits` or `digits.digits`, each with an optional
`e`/`E` exponent; every digit run may contain underscores between
digits. -/
def parseDecimal (neg : Bool) (cs : List Char) : Option PyFloat :=
  let ip := cs.takeWhile (fun c => c.isDigit || c = '_')
  let rest := cs.drop ip.length
  match rest with
  | [] =>
    if validGroup ip then some (.fin (ratVal neg (stripUnd ip) [] 0))
    else none
  | '.' :: rest2 =>
    let fp := rest2.takeWhile (fun c => c.isDigit || c = '_')
    let rest3 := rest2.drop fp.length
    if (ip.isEmpty || validGroup ip) && (fp.isEmpty || validGroup fp) &&
        !(ip.isEmpty && fp.isEmpty) then
      match rest3 with
      | [] => some (.fin (ratVal neg (stripUnd ip) (stripUnd fp) 0))
      | c :: rest4 =>
        if c = 'e' || c = 'E' then
          (parseExp rest4).map
            (fun e => .fin (ratVal neg (stripUnd ip) (stripUnd fp) e))
        else none
    else none
  | c :: rest4 =>
    if c = 'e' || c = 'E' then
      if validGroup ip then
        (parseExp rest4).map (fun e => .fin (ratVal neg (stripUnd ip) [] e))
      else none
    else none

/-- Model of Python `float(s)`: strip surrounding whitespace, take an
optional sign, accept case-insensitive `inf`/`infinity`/`nan` or a
decimal form; `none` models the `ValueError` on anything else. -/
def parseFloat (s : String) : Option PyFloat :=
  let cs := stripWs s.data
  let (neg, cs2) := stripSign cs
  let low := cs2.map Char.toLower
  if low = ['i', 'n', 'f'] ||
     low = ['i', 'n', 'f', 'i', 'n', 'i', 't', 'y'] then
    some (.inf neg)
  else if low = ['n', 'a', 'n'] then some .nan
  else parseDecimal neg cs2

/-- Model of Python `int(s)`: strip surrounding whitespace, take an
optional sign, then a digit group; `none` models the `ValueError`. A
leading minus is accepted, so the result may be negative. -/
def parseInt (s : String) : Option Int :=
  let cs := stripWs s.data
  let (neg, cs2) := stripSign cs
  if validGroup cs2 then
    some (if neg then -(digitsToNat (stripUnd cs2) : Int)
      else (digitsToNat (stripUnd cs2) : Int))
  else none

/-- A decoded JSON record: string keys to string values, in insertion
order, keys unique (a Python dict as decoded by `requests`' `r.json()`). -/
abbrev RawRec := List (String × String)

/-- The part of the decoded response the transforms read:
`response_dict["meta"]["symbol"]` and `response_dict["values"]`. -/
structure Payload where
  symbol : String
  values : List RawRec

/-- Python dict lookup `r[k]` on an association list. -/
def lookupA {α : Type} : List (String × α) → String → Option α
  | [], _ => none
  | kv :: r, k => if kv.1 = k then some kv.2 else lookupA r k

/-- Python dict assignment `r[k] = v`: replace the value at `k` in place
if the key is present, otherwise append the new key at the end (insertion
order). -/
def dictSet {α : Type} : List (String × α) → String → α → List (String × α)
  | [], k, v => [(k, v)]
  | kv :: r, k, v => if kv.1 = k then (k, v) :: r else kv :: dictSet r k v

/-- A Python value stored in a mutated record: the original strings, a
parsed datetime, a float, or an int. -/
inductive PyVal
  | vstr (s : String)
  | vdt (t : Timestamp)
  | vfloat (x : PyFloat)
  | vint (n : Int)
deriving DecidableEq, Repr

/-- A record after `transform_hourly`'s in-place mutation. -/
abbrev TypedRec := List (String × PyVal)

/-- A raw record seen as a typed one (every value still a string). -/
def asTyped (rec : RawRec) : TypedRec :=
  rec.map (fun kv => (kv.1, PyVal.vstr kv.2))

/-- Python exceptions the transforms can raise, by site. -/
inductive NormError
  | keyError (k : String)
  | parseError
  | valueError (k : String)
  | indexError
deriving DecidableEq, Repr

instance {ε α : Type} [DecidableEq ε] [DecidableEq α] :
    DecidableEq (Except ε α) := fun x y =>
  match x, y with
  | .error a, .error b =>
    if h : a = b then .isTrue (by rw [h]) else .isFalse (by simp [h])
  | .error _, .ok _ => .isFalse (by simp)
  | .ok _, .error _ => .isFalse (by simp)
  | .ok a, .ok b =>
    if h : a = b then .isTrue (by rw [h]) else .isFalse (by simp [h])

/-- Model of `float(value[k])`: `KeyError` on a missing key, `ValueError`
on a non-numeric string. -/
def getF (rec : RawRec) (k : String) : Except NormError PyFloat :=
  match lookupA rec k with
  | none => .error (.keyError k)
  | some s =>
    match parseFloat s with
    | none => .error (.valueError k)
    | some q => .ok q

/-- Model of `int(value[k])`. -/
def getI (rec : RawRec) (k : String) : Except NormError Int :=
  match lookupA rec k with
  | none => .error (.keyError k)
  | some s =>
    match parseInt s with
    | none => .error (.valueError k)
    | some n => .ok n

/-- The state of a record after `transform_hourly`'s seven in-place dict
assignments (main.py lines 44-50), given the parsed values: `symbol` is
written first (appended when absent), then `datetime`, `open`, `high`,
`low`, `close`, `volume` are overwritten in place. -/
def mutatedRec (sym : String) (rec : RawRec) (ts : Timestamp)
    (o hi lo c : PyFloat) (v : Int) : TypedRec :=
  dictSet (dictSet (dictSet (dictSet (dictSet (dictSet
    (dictSet (asTyped rec) "symbol" (PyVal.vstr sym))
    "datetime" (PyVal.vdt ts)) "open" (PyVal.vfloat o))
    "high" (PyVal.vfloat hi)) "low" (PyVal.vfloat lo))
    "close" (PyVal.vfloat c)) "volume" (PyVal.vint v)

/-- Body of `transform_hourly`'s loop for one record (main.py lines
44-50): set `value["symbol"]`, parse `value["datetime"]` in place, cast
open/high/low/close to float and volume to int, each assignment mutating
the record. Returns the mutated record, or the first exception raised.
The numeric casts read the original string values: the keys written
before each read are distinct from the key being read. The five casts of
lines 46-50 are `cast_ohlcv`; the symbol/datetime steps of lines 44-45
are in `transform_hourly_record`. -/
def cast_ohlcv (sym : String) (rec : RawRec) (ts : Timestamp) :
    Except NormError TypedRec :=
  match getF rec "open" with
  | .error e => .error e
  | .ok o =>
    match getF rec "high" with
    | .error e => .error e
    | .ok hi =>
      match getF rec "low" with
      | .error e => .error e
      | .ok lo =>
        match getF rec "close" with
        | .error e => .error e
        | .ok c =>
          match getI rec "volume" with
          | .error e => .error e
          | .ok v => .ok (mutatedRec sym rec ts o hi lo c v)

def transform_hourly_record (sym : String) (rec : RawRec) :
    Except NormError TypedRec :=
  match lookupA rec "datetime" with
  | none => .error (.keyError "datetime")
  | some ds =>
    match parseDatetime ds with
    | none => .error .parseError
    | some ts => cast_ohlcv sym rec ts

/-- Effectful map over a list, stopping at the first error — the shape of
the Python `for` loops in both transforms. -/
def mapE {α β : Type} (f : α → Except NormError β) :
    List α → Except NormError (List β)
  | [] => .ok []
  | a :: l =>
    match f a with
    | .error e => .error e
    | .ok b =>
      match mapE f l with
      | .error e => .error e
      | .ok bs => .ok (b :: bs)

/-- `transform_hourly` (main.py lines 32-53): mutate every record of
`response_dict["values"]`; the mutated list is what is then passed to
`load_hourly`. -/
def transform_hourly (p : Payload) : Except NormError (List TypedRec) :=
  mapE (transform_hourly_record p.symbol) p.values

/-- A row of the `hourly_data` table, one column per named parameter of
`load_hourly`'s INSERT statement (`open` is a Lean keyword, hence
`open_`). -/
structure BarRow where
  ticker : String
  timestamp : Timestamp
  open_ : PyFloat
  high : PyFloat
  low : PyFloat
  close : PyFloat
  volume : Int
deriving DecidableEq, Repr

/-- A row of the `technical_data` table, one column per named parameter
of `load_technical`'s INSERT statement. -/
structure IndicatorRow where
  ticker : String
  timestamp : Timestamp
  indicator : String
  value : PyFloat
deriving DecidableEq, Repr

/-- The named-parameter extraction performed by `load_hourly`'s INSERT on
one mutated record: read `symbol`, `datetime`, `open`, `high`, `low`,
`close`, `volume`, each with the type its column expects. -/
def barRowOf (r : TypedRec) : Option BarRow :=
  match lookupA r "symbol", lookupA r "datetime", lookupA r "open",
        lookupA r "high", lookupA r "low", lookupA r "close",
        lookupA r "volume" with
  | some (.vstr sym), some (.vdt ts), some (.vfloat o), some (.vfloat hi),
    some (.vfloat lo), some (.vfloat c), some (.vint v) =>
    some ⟨sym, ts, o, hi, lo, c, v⟩
  | _, _, _, _, _, _, _ => none

/-- Body of `transform_technical`'s loop for one record (main.py lines
69-74): build a fresh dict with the metadata symbol, the parsed datetime,
the record's *second* key as the indicator name (`list(value.keys())[1]`,
an `IndexError` when the record has fewer than two keys), and
`float(value[indicator])` as the value. The input record is not
modified. -/
def transform_technical_record (sym ind : String) (rec : RawRec) :
    Except NormError IndicatorRow :=
  match lookupA rec "datetime" with
  | none => .error (.keyError "datetime")
  | some ds =>
    match parseDatetime ds with
    | none => .error .parseError
    | some ts =>
      match (rec.map Prod.fst).get? 1 with
      | none => .error .indexError
      | some iname =>
        match getF rec ind with
        | .error e => .error e
        | .ok v => .ok ⟨sym, ts, iname, v⟩

/-- `transform_technical` (main.py lines 55-77): build one fresh
IndicatorRow dict per record of `response_dict["values"]`; the list is
what is then passed to `load_technical`. -/
def transform_technical (p : Payload) (ind : String) :
    Except NormError (List IndicatorRow) :=
  mapE (transform_technical_record p.symbol ind) p.values

/-- Column layout of a table, as given by the CREATE TABLE statements. -/
structure TableSchema where
  columns : List (String × String)
  primaryKey : List String
deriving DecidableEq, Repr

/-- The DDL of `create_hourly_table` (main.py lines 90-101). -/
def hourlySchema : TableSchema :=
  { columns := [("ticker", "VARCHAR(10) NOT NULL"),
                ("datetime", "TIMESTAMP NOT NULL"),
                ("open", "DECIMAL(10,2)"), ("high", "DECIMAL(10,2)"),
                ("low", "DECIMAL(10,2)"), ("close", "DECIMAL(10,2)"),
                ("volume", "BIGINT")],
    primaryKey := ["ticker", "datetime"] }

/-- The DDL of `create_technical_table` (main.py lines 114-122). -/
def technicalSchema : TableSchema :=
  { columns := [("ticker", "VARCHAR(10) NOT NULL"),
                ("datetime", "TIMESTAMP NOT NULL"),
                ("indicator", "VARCHAR(10) NOT NULL"),
                ("value", "DECIMAL(10,2)")],
    primaryKey := ["ticker", "datetime", "indicator"] }

/-- Database state: for each of the two tables, its schema when the table
exists (`none` = absent) and its rows. -/
structure DB where
  hourlyTab : Option TableSchema
  hourlyRows : List BarRow
  technicalTab : Option TableSchema
  technicalRows : List IndicatorRow
deriving DecidableEq, Repr

/-- `create_hourly_table` (main.py lines 79-101): query
`information_schema.tables` for a table named `hourly_data`; only when it
is absent, execute the CREATE TABLE. An existing table is left exactly as
it is, whatever its structure. -/
def create_hourly_table (db : DB) : DB :=
  if db.hourlyTab.isSome then db
  else { db with hourlyTab := some hourlySchema }

/-- `create_technical_table` (main.py lines 103-122): same check-then-
create for `technical_data`. -/
def create_technical_table (db : DB) : DB :=
  if db.technicalTab.isSome then db
  else { db with technicalTab := some technicalSchema }

/-- Errors a `load_*` call can hit at the database. -/
inductive LoadError
  | constraintViolation
deriving DecidableEq, Repr

/-- One INSERT into `hourly_data`: the DDL declares
`PRIMARY KEY (ticker, datetime)` and the INSERT has no conflict clause,
so a duplicate key is rejected. -/
def insertBar (rows : List BarRow) (r : BarRow) :
    Except LoadError (List BarRow) :=
  if rows.any (fun x => x.ticker = r.ticker ∧ x.timestamp = r.timestamp)
  then .error .constraintViolation
  else .ok (rows ++ [r])

/-- The batched INSERT of `load_hourly` (`psycopg2.extras.execute_batch`):
all rows in order, stopping at the first rejection. -/
def insertBars (rows : List BarRow) : List BarRow →
    Except LoadError (List BarRow)
  | [] => .ok rows
  | r :: rs =>
    match insertBar rows r with
    | .error e => .error e
    | .ok rows2 => insertBars rows2 rs

/-- One INSERT into `technical_data`: `PRIMARY KEY (ticker, datetime,
indicator)`, no conflict clause. -/
def insertInd (rows : List IndicatorRow) (r : IndicatorRow) :
    Except LoadError (List IndicatorRow) :=
  if rows.any (fun x => x.ticker = r.ticker ∧ x.timestamp = r.timestamp ∧
                        x.indicator = r.indicator)
  then .error .constraintViolation
  else .ok (rows ++ [r])

/-- The batched INSERT of `load_technical`. -/
def insertInds (rows : List IndicatorRow) : List IndicatorRow →
    Except LoadError (List IndicatorRow)
  | [] => .ok rows
  | r :: rs =>
    match insertInd rows r with
    | .error e => .error e
    | .ok rows2 => insertInds rows2 rs

/-- Outcome of a `load_*` call: the returned-or-raised result, the
database state after the call, and whether `curr.close()`/`conn.close()`
were reached. -/
structure LoadOutcome where
  result : Except LoadError Unit
  db : DB
  connReleased : Bool
deriving DecidableEq, Repr

/-- `load_hourly` (main.py lines 124-153): connect, open a cursor, ensure
the table, run the batched INSERT, `conn.commit()`, then close cursor and
connection. There is no try/finally: when the INSERT raises, the
exception propagates and the two `close()` calls on lines 150-151 are
never executed; nothing was committed, so the open transaction (including
a CREATE TABLE issued on the same connection) is rolled back. -/
def load_hourly (db : DB) (rows : List BarRow) : LoadOutcome :=
  match insertBars (create_hourly_table db).hourlyRows rows with
  | .error e => { result := .error e, db := db, connReleased := false }
  | .ok rs =>
    { result := .ok (),
      db := { create_hourly_table db with hourlyRows := rs },
      connReleased := true }

/-- `load_technical` (main.py lines 155-181): same shape as
`load_hourly` against `technical_data`. -/
def load_technical (db : DB) (rows : List IndicatorRow) :
    LoadOutcome :=
  match insertInds (create_technical_table db).technicalRows rows with
  | .error e => { result := .error e, db := db, connReleased := false }
  | .ok rs =>
    { result := .ok (),
      db := { create_technical_table db with technicalRows := rs },
      connReleased := true }

/-- Observable steps of the module-level driver script. -/
inductive Ev
  | fetchBars (t : String)
  | normBars (t : String)
  | storeBars (t : String)
  | fetchInd (t i : String)
  | normInd (t i : String)
  | storeInd (t i : String)
  | pause (secs : Nat)
deriving DecidableEq, Repr

/-- The first driver loop (main.py lines 189-192): per ticker, one
extract, one transform, one load — `transform_hourly` calls
`load_hourly` itself, shown here as the store step — and no sleep. -/
def barStage : List String → List Ev
  | [] => []
  | t :: ts => .fetchBars t :: .normBars t :: .storeBars t :: barStage ts

/-- Body of the second driver loop for one ticker (main.py lines
199-203): per indicator, extract, transform, load, then `time.sleep(60)`. -/
def indStageFor (t : String) : List String → List Ev
  | [] => []
  | i :: is =>
    .fetchInd t i :: .normInd t i :: .storeInd t i :: .pause 60 ::
      indStageFor t is

/-- The second driver loop (main.py lines 198-203). -/
def indStage : List String → List String → List Ev
  | [], _ => []
  | t :: ts, is => indStageFor t is ++ indStage ts is

/-- The driver script (main.py lines 185-203): the bar loop, then
`time.sleep(100)`, then the indicator loop. -/
def driverTrace (ts is : List String) : List Ev :=
  barStage ts ++ [.pause 100] ++ indStage ts is

/-- The hardcoded ticker list (main.py line 185). -/
def tickers : List String :=
  ["SPY", "XOM", "USDX", "VIXY", "GLD", "QQQ", "ARKK", "IBIT"]

/-- The hardcoded indicator list (main.py line 196). -/
def technical_indicators : List String := ["adx", "rsi", "percent_b", "ema"]

/-- Does an event model a `time.sleep` call? -/
def isPause : Ev → Bool
  | .pause _ => true
  | _ => false

/-- The five numeric fields `transform_hourly` casts. -/
def ohlcvKeys : List String := ["open", "high", "low", "close", "volume"]

/-- All five numeric fields are present and decode (open/high/low/close
as floats, volume as an int). -/
def validAllNum (rec : RawRec) : Bool :=
  ((lookupA rec "open").bind parseFloat).isSome &&
  ((lookupA rec "high").bind parseFloat).isSome &&
  ((lookupA rec "low").bind parseFloat).isSome &&
  ((lookupA rec "close").bind parseFloat).isSome &&
  ((lookupA rec "volume").bind parseInt).isSome

/-- A bar record is valid: its datetime string parses under
`%Y-%m-%d %H:%M:%S` and all five numeric fields decode. -/
def validBarRec (rec : RawRec) : Bool :=
  ((lookupA rec "datetime").bind parseDatetime).isSome && validAllNum rec

/-- An indicator record is valid for `ind`: datetime parses, the record
has at least two keys, and the value at key `ind` decodes as a float. -/
def validIndRec (ind : String) (rec : RawRec) : Bool :=
  ((lookupA rec "datetime").bind parseDatetime).isSome &&
  decide (1 < rec.length) &&
  ((lookupA rec ind).bind parseFloat).isSome

/-- Is this error the spec's "TypeError equivalent": a failure (missing
key or non-numeric string) on one of the five numeric fields? -/
def isFieldErr : NormError → Bool
  | .keyError k => ohlcvKeys.contains k
  | .valueError k => ohlcvKeys.contains k
  | _ => false

/-- Did the computation raise an error satisfying `p`? -/
def failsWith {α : Type} (r : Except NormError α) (p : NormError → Bool) :
    Bool :=
  match r with
  | .error e => p e
  | .ok _ => false

/-- The spec's end-to-end bar example payload. -/
def spyPayload : Payload :=
  ⟨"SPY", [[("datetime", "2024-01-01 09:30:00"), ("open", "470.1"),
            ("high", "471.0"), ("low", "469.8"), ("close", "470.5"),
            ("volume", "1000000")]]⟩

/-- The spec's end-to-end indicator example payload. -/
def rsiPayload : Payload :=
  ⟨"SPY", [[("datetime", "2024-01-01 09:30:00"), ("rsi", "55.2")]]⟩

/-- A bar payload whose volume string is a negative integer. -/
def negVolPayload : Payload :=
  ⟨"SPY", [[("datetime", "2024-01-01 09:30:00"), ("open", "1"),
            ("high", "1"), ("low", "1"), ("close", "1"),
            ("volume", "-5")]]⟩

/-- A bar record whose datetime string is malformed and whose numeric
fields are all absent. -/
def badRec : RawRec := [("datetime", "not-a-datetime")]

/-- A bar record whose datetime string does not match the exact format
`YYYY-MM-DD HH:MM:SS` yet is accepted by `strptime`, and whose numeric
strings are accepted by `float()`/`int()` though not plain decimals. -/
def lenientRec : RawRec :=
  [("datetime", "2024-1-1 9:30:00"), ("open", "1e5"), ("high", " 12 "),
   ("low", "1_000"), ("close", "470.5"), ("volume", " 1_000 ")]

/-- The one-key record used to witness C10. -/
def oneKeyRec : RawRec := [("datetime", "2024-01-01 09:30:00")]

/-- The single record of the spec's SPY example payload. -/
def spyRec : RawRec :=
  [("datetime", "2024-01-01 09:30:00"), ("open", "470.1"),
   ("high", "471.0"), ("low", "469.8"), ("close", "470.5"),
   ("volume", "1000000")]

/-- The payload and database used to witness C5. -/
def emptyPayload : Payload := ⟨"SPY", []⟩

/-- A database with neither table present and no rows. -/
def emptyDB : DB := ⟨none, [], none, []⟩

/-- A database where both tables already exist. -/
def fullDB : DB := ⟨some hourlySchema, [], some technicalSchema, []⟩


/-! Helper lemmas about the dict operations. -/

theorem lookupA_dictSet_self {α : Type} (r : List (String × α)) (k : String)
    (v : α) : lookupA (dictSet r k v) k = some v := by
  induction r with
  | nil => simp [dictSet, lookupA]
  | cons kv r ih =>
    by_cases h : kv.1 = k
    · simp [dictSet, lookupA, h]
    · simp [dictSet, lookupA, h, ih]

theorem lookupA_dictSet_ne {α : Type} (r : List (String × α)) {k k2 : String}
    (v : α) (h : k2 ≠ k) : lookupA (dictSet r k v) k2 = lookupA r k2 := by
  induction r with
  | nil => simp [dictSet, lookupA, Ne.symm h]
  | cons kv r ih =>
    by_cases hk : kv.1 = k
    · simp [dictSet, lookupA, hk, Ne.symm h]
    · by_cases hk2 : kv.1 = k2
      · simp [dictSet, lookupA, hk, hk2, h]
      · simp [dictSet, lookupA, hk, hk2, ih]

theorem lookupA_asTyped (rec : RawRec) (k : String) :
    lookupA (asTyped rec) k = (lookupA rec k).map PyVal.vstr := by
  induction rec with
  | nil => simp [asTyped, lookupA]
  | cons kv r ih =>
    by_cases h : kv.1 = k
    · simp [asTyped, lookupA, h]
    · simp only [asTyped, List.map_cons, lookupA, h, if_false]
      exact ih

theorem keys_asTyped (rec : RawRec) :
    (asTyped rec).map Prod.fst = rec.map Prod.fst := by
  induction rec with
  | nil => rfl
  | cons kv r ih => simp only [asTyped, List.map_cons] at ih ⊢; rw [ih]

theorem lookupA_isSome_mem {α : Type} (r : List (String × α)) (k : String)
    (h : (lookupA r k).isSome) : k ∈ r.map Prod.fst := by
  induction r with
  | nil => simp [lookupA] at h
  | cons kv r ih =>
    by_cases hk : kv.1 = k
    · simp [hk]
    · simp [lookupA, hk] at h
      simp [ih h]

theorem keys_dictSet_of_mem {α : Type} (r : List (String × α)) (k : String)
    (v : α) (h : k ∈ r.map Prod.fst) :
    (dictSet r k v).map Prod.fst = r.map Prod.fst := by
  induction r with
  | nil => simp at h
  | cons kv r ih =>
    by_cases hk : kv.1 = k
    · simp [dictSet, hk]
    · have : k ∈ r.map Prod.fst := by
        rcases (List.mem_cons).1 h with h1 | h1
        · exact absurd h1.symm hk
        · exact h1
      simp [dictSet, hk, ih this]

theorem keys_dictSet_of_not_mem {α : Type} (r : List (String × α))
    (k : String) (v : α) (h : k ∉ r.map Prod.fst) :
    (dictSet r k v).map Prod.fst = r.map Prod.fst ++ [k] := by
  induction r with
  | nil => simp [dictSet]
  | cons kv r ih =>
    by_cases hk : kv.1 = k
    · exact absurd (by simp [hk]) h
    · have : k ∉ r.map Prod.fst := fun hm => h (by simp [hm])
      simp [dictSet, hk, ih this]

/-! Helper lemmas about `getF`, `getI` and `mapE`. -/

theorem getF_ok_iff (rec : RawRec) (k : String) (q : PyFloat) :
    getF rec k = .ok q ↔ (lookupA rec k).bind parseFloat = some q := by
  unfold getF
  cases lookupA rec k with
  | none => simp
  | some s =>
    cases hp : parseFloat s with
    | none => simp [hp]
    | some r => simp [hp]

theorem getI_ok_iff (rec : RawRec) (k : String) (n : Int) :
    getI rec k = .ok n ↔ (lookupA rec k).bind parseInt = some n := by
  unfold getI
  cases lookupA rec k with
  | none => simp
  | some s =>
    cases hp : parseInt s with
    | none => simp [hp]
    | some r => simp [hp]

theorem getF_error_shape (rec : RawRec) (k : String) (e : NormError)
    (h : getF rec k = .error e) :
    (lookupA rec k).bind parseFloat = none ∧
      (e = .keyError k ∨ e = .valueError k) := by
  unfold getF at h
  split at h
  · rename_i hl
    injection h with h2
    exact ⟨by rw [hl]; rfl, .inl h2.symm⟩
  · split at h
    · injection h with h2
      exact ⟨by simp_all, .inr h2.symm⟩
    · exact Except.noConfusion h

theorem getI_error_shape (rec : RawRec) (k : String) (e : NormError)
    (h : getI rec k = .error e) :
    (lookupA rec k).bind parseInt = none ∧
      (e = .keyError k ∨ e = .valueError k) := by
  unfold getI at h
  split at h
  · rename_i hl
    injection h with h2
    exact ⟨by rw [hl]; rfl, .inl h2.symm⟩
  · split at h
    · injection h with h2
      exact ⟨by simp_all, .inr h2.symm⟩
    · exact Except.noConfusion h

theorem mapE_forall2_intro {α β : Type} {f : α → Except NormError β}
    {R : α → β → Prop} :
    ∀ l : List α, (∀ a ∈ l, ∃ b, f a = .ok b ∧ R a b) →
      ∃ bs, mapE f l = .ok bs ∧ List.Forall₂ R l bs
  | [], _ => ⟨[], rfl, .nil⟩
  | a :: l, h => by
    obtain ⟨b, hfa, hR⟩ := h a (List.mem_cons_self a l)
    obtain ⟨bs, hm, hF⟩ :=
      mapE_forall2_intro l (fun x hx => h x (List.mem_cons_of_mem a hx))
    exact ⟨b :: bs, by simp [mapE, hfa, hm], .cons hR hF⟩

theorem mapE_ok_forall2 {α β : Type} {f : α → Except NormError β} :
    ∀ {l : List α} {bs : List β}, mapE f l = .ok bs →
      List.Forall₂ (fun a b => f a = .ok b) l bs := by
  intro l
  induction l with
  | nil => intro bs h; cases h; exact .nil
  | cons a l ih =>
    intro bs h
    unfold mapE at h
    cases hfa : f a with
    | error e => rw [hfa] at h; exact Except.noConfusion h
    | ok b =>
      rw [hfa] at h
      cases hm : mapE f l with
      | error e => rw [hm] at h; exact Except.noConfusion h
      | ok bs2 =>
        rw [hm] at h
        cases h
        exact .cons hfa (ih hm)

theorem barRowOf_mutatedRec (sym : String) (rec : RawRec) (ts : Timestamp)
    (o hi lo c : PyFloat) (v : Int) :
    barRowOf (mutatedRec sym rec ts o hi lo c v) =
      some ⟨sym, ts, o, hi, lo, c, v⟩ := by
  unfold barRowOf mutatedRec
  rw [lookupA_dictSet_ne _ _ (by decide), lookupA_dictSet_ne _ _ (by decide),
      lookupA_dictSet_ne _ _ (by decide), lookupA_dictSet_ne _ _ (by decide),
      lookupA_dictSet_ne _ _ (by decide), lookupA_dictSet_ne _ _ (by decide),
      lookupA_dictSet_self,
      lookupA_dictSet_ne _ _ (by decide), lookupA_dictSet_ne _ _ (by decide),
      lookupA_dictSet_ne _ _ (by decide), lookupA_dictSet_ne _ _ (by decide),
      lookupA_dictSet_ne _ _ (by decide), lookupA_dictSet_self,
      lookupA_dictSet_ne _ _ (by decide), lookupA_dictSet_ne _ _ (by decide),
      lookupA_dictSet_ne _ _ (by decide), lookupA_dictSet_ne _ _ (by decide),
      lookupA_dictSet_self,
      lookupA_dictSet_ne _ _ (by decide), lookupA_dictSet_ne _ _ (by decide),
      lookupA_dictSet_ne _ _ (by decide), lookupA_dictSet_self,
      lookupA_dictSet_ne _ _ (by decide), lookupA_dictSet_ne _ _ (by decide),
      lookupA_dictSet_self,
      lookupA_dictSet_ne _ _ (by decide), lookupA_dictSet_self,
      lookupA_dictSet_self]

theorem transform_hourly_record_ok_iff {sym : String} {rec : RawRec}
    {tr : TypedRec} :
    transform_hourly_record sym rec = .ok tr ↔
      ∃ ds ts o hi lo c v,
        lookupA rec "datetime" = some ds ∧ parseDatetime ds = some ts ∧
        getF rec "open" = .ok o ∧ getF rec "high" = .ok hi ∧
        getF rec "low" = .ok lo ∧ getF rec "close" = .ok c ∧
        getI rec "volume" = .ok v ∧
        tr = mutatedRec sym rec ts o hi lo c v := by
  constructor
  · intro h
    unfold transform_hourly_record at h
    split at h
    · exact Except.noConfusion h
    · rename_i ds hds
      split at h
      · exact Except.noConfusion h
      · rename_i ts hts
        unfold cast_ohlcv at h
        split at h
        · exact Except.noConfusion h
        · rename_i o ho
          split at h
          · exact Except.noConfusion h
          · rename_i hi hh
            split at h
            · exact Except.noConfusion h
            · rename_i lo hl
              split at h
              · exact Except.noConfusion h
              · rename_i c hc
                split at h
                · exact Except.noConfusion h
                · rename_i v hvv
                  injection h with h2
                  exact ⟨ds, ts, o, hi, lo, c, v, hds, hts, ho, hh, hl,
                    hc, hvv, h2.symm⟩
  · rintro ⟨ds, ts, o, hi, lo, c, v, hds, hts, ho, hh, hl, hc, hvv, rfl⟩
    unfold transform_hourly_record cast_ohlcv
    simp only [hds, hts, ho, hh, hl, hc, hvv]

theorem transform_hourly_record_valid (sym : String) (rec : RawRec)
    (hv : validBarRec rec = true) :
    ∃ tr, transform_hourly_record sym rec = .ok tr ∧
      ∃ row, barRowOf tr = some row ∧ row.ticker = sym ∧
        some row.timestamp = (lookupA rec "datetime").bind parseDatetime ∧
        some row.open_ = (lookupA rec "open").bind parseFloat ∧
        some row.high = (lookupA rec "high").bind parseFloat ∧
        some row.low = (lookupA rec "low").bind parseFloat ∧
        some row.close = (lookupA rec "close").bind parseFloat ∧
        some row.volume = (lookupA rec "volume").bind parseInt := by
  unfold validBarRec validAllNum at hv
  simp only [Bool.and_eq_true, Option.isSome_iff_exists, and_assoc] at hv
  obtain ⟨⟨ts, hts⟩, ⟨o, ho⟩, ⟨hi, hh⟩, ⟨lo, hl⟩, ⟨c, hc⟩, ⟨v, hvv⟩⟩ := hv
  obtain ⟨ds, hds, hds2⟩ := Option.bind_eq_some.mp hts
  refine ⟨mutatedRec sym rec ts o hi lo c v,
    transform_hourly_record_ok_iff.mpr
      ⟨ds, ts, o, hi, lo, c, v, hds, hds2, (getF_ok_iff _ _ _).mpr ho,
       (getF_ok_iff _ _ _).mpr hh, (getF_ok_iff _ _ _).mpr hl,
       (getF_ok_iff _ _ _).mpr hc, (getI_ok_iff _ _ _).mpr hvv, rfl⟩,
    ⟨sym, ts, o, hi, lo, c, v⟩, barRowOf_mutatedRec sym rec ts o hi lo c v,
    rfl, hts.symm, ho.symm, hh.symm, hl.symm, hc.symm, hvv.symm⟩

/-- C1: for every valid bar payload (every record has a well-formed
datetime string and decodable open/high/low/close/volume fields),
`transform_hourly` produces exactly one row per input record, in input
order; the row handed to the INSERT has `ticker` equal to the metadata
symbol, `timestamp` equal to the datetime string parsed under
`%Y-%m-%d %H:%M:%S`, open/high/low/close equal to the decoded floats and
volume equal to the decoded integer. -/
theorem normalize_bars_one_row_per_record (p : Payload)
    (hv : ∀ rec ∈ p.values, validBarRec rec = true) :
    ∃ trs, transform_hourly p = .ok trs ∧
      trs.length = p.values.length ∧
      List.Forall₂ (fun rec tr =>
        ∃ row, barRowOf tr = some row ∧ row.ticker = p.symbol ∧
          some row.timestamp = (lookupA rec "datetime").bind parseDatetime ∧
          some row.open_ = (lookupA rec "open").bind parseFloat ∧
          some row.high = (lookupA rec "high").bind parseFloat ∧
          some row.low = (lookupA rec "low").bind parseFloat ∧
          some row.close = (lookupA rec "close").bind parseFloat ∧
          some row.volume = (lookupA rec "volume").bind parseInt)
        p.values trs := by
  obtain ⟨trs, hm, hF⟩ := mapE_forall2_intro p.values
    (fun rec hrec => transform_hourly_record_valid p.symbol rec (hv rec hrec))
  exact ⟨trs, hm, hF.length_eq.symm, hF⟩

/-- Witness for C1 at the spec's end-to-end SPY example. -/
theorem normalize_bars_one_row_per_record_witness :
    (∀ rec ∈ spyPayload.values, validBarRec rec = true) ∧
    (∃ trs, transform_hourly spyPayload = .ok trs ∧
      trs.length = spyPayload.values.length ∧
      List.Forall₂ (fun rec tr =>
        ∃ row, barRowOf tr = some row ∧ row.ticker = spyPayload.symbol ∧
          some row.timestamp = (lookupA rec "datetime").bind parseDatetime ∧
          some row.open_ = (lookupA rec "open").bind parseFloat ∧
          some row.high = (lookupA rec "high").bind parseFloat ∧
          some row.low = (lookupA rec "low").bind parseFloat ∧
          some row.close = (lookupA rec "close").bind parseFloat ∧
          some row.volume = (lookupA rec "volume").bind parseInt)
        spyPayload.values trs) :=
  ⟨by decide, normalize_bars_one_row_per_record spyPayload (by decide)⟩

theorem transform_technical_record_ok_iff {sym ind : String} {rec : RawRec}
    {row : IndicatorRow} :
    transform_technical_record sym ind rec = .ok row ↔
      ∃ ds ts iname v,
        lookupA rec "datetime" = some ds ∧ parseDatetime ds = some ts ∧
        (rec.map Prod.fst).get? 1 = some iname ∧
        getF rec ind = .ok v ∧ row = ⟨sym, ts, iname, v⟩ := by
  constructor
  · intro h
    unfold transform_technical_record at h
    split at h
    · exact Except.noConfusion h
    · rename_i ds hds
      split at h
      · exact Except.noConfusion h
      · rename_i ts hts
        split at h
        · exact Except.noConfusion h
        · rename_i iname hname
          split at h
          · exact Except.noConfusion h
          · rename_i v hvv
            injection h with h2
            exact ⟨ds, ts, iname, v, hds, hts, hname, hvv, h2.symm⟩
  · rintro ⟨ds, ts, iname, v, hds, hts, hname, hvv, rfl⟩
    unfold transform_technical_record
    simp only [hds, hts, hname, hvv]

theorem transform_technical_record_valid (sym ind : String) (rec : RawRec)
    (hv : validIndRec ind rec = true) :
    ∃ row, transform_technical_record sym ind rec = .ok row ∧
      row.ticker = sym ∧
      some row.timestamp = (lookupA rec "datetime").bind parseDatetime ∧
      some row.indicator = (rec.map Prod.fst).get? 1 ∧
      some row.value = (lookupA rec ind).bind parseFloat := by
  unfold validIndRec at hv
  simp only [Bool.and_eq_true, Option.isSome_iff_exists, and_assoc,
    decide_eq_true_eq] at hv
  obtain ⟨⟨ts, hts⟩, hlen, ⟨v, hvv⟩⟩ := hv
  obtain ⟨ds, hds, hds2⟩ := Option.bind_eq_some.mp hts
  have hname : ∃ iname, (rec.map Prod.fst).get? 1 = some iname := by
    cases hn : (rec.map Prod.fst).get? 1 with
    | none =>
      have := List.get?_eq_none.mp hn
      rw [List.length_map] at this
      omega
    | some iname => exact ⟨iname, rfl⟩
  obtain ⟨iname, hname⟩ := hname
  exact ⟨⟨sym, ts, iname, v⟩,
    transform_technical_record_ok_iff.mpr
      ⟨ds, ts, iname, v, hds, hds2, hname, (getF_ok_iff _ _ _).mpr hvv, rfl⟩,
    rfl, hts.symm, hname.symm, hvv.symm⟩

/-- C2: for every valid indicator payload and indicator name (every
record has a well-formed datetime, at least two keys, and a decodable
value at the indicator key), `transform_technical` produces exactly one
IndicatorRow per input record, in input order, whose `ticker` is the
metadata symbol, whose `timestamp` is the parsed datetime, whose
`indicator` field is the *second key of the record* (not necessarily the
indicator argument), and whose `value` is the decoded float at the
indicator key. -/
theorem normalize_indicator_one_row_per_record (p : Payload) (ind : String)
    (hv : ∀ rec ∈ p.values, validIndRec ind rec = true) :
    ∃ rows, transform_technical p ind = .ok rows ∧
      rows.length = p.values.length ∧
      List.Forall₂ (fun rec (row : IndicatorRow) =>
        row.ticker = p.symbol ∧
        some row.timestamp = (lookupA rec "datetime").bind parseDatetime ∧
        some row.indicator = (rec.map Prod.fst).get? 1 ∧
        some row.value = (lookupA rec ind).bind parseFloat)
        p.values rows := by
  obtain ⟨rows, hm, hF⟩ := mapE_forall2_intro p.values
    (fun rec hrec =>
      transform_technical_record_valid p.symbol ind rec (hv rec hrec))
  exact ⟨rows, hm, hF.length_eq.symm, hF⟩

/-- Witness for C2 at the spec's end-to-end RSI example. -/
theorem normalize_indicator_one_row_per_record_witness :
    (∀ rec ∈ rsiPayload.values, validIndRec "rsi" rec = true) ∧
    (∃ rows, transform_technical rsiPayload "rsi" = .ok rows ∧
      rows.length = rsiPayload.values.length ∧
      List.Forall₂ (fun rec (row : IndicatorRow) =>
        row.ticker = rsiPayload.symbol ∧
        some row.timestamp = (lookupA rec "datetime").bind parseDatetime ∧
        some row.indicator = (rec.map Prod.fst).get? 1 ∧
        some row.value = (lookupA rec "rsi").bind parseFloat)
        rsiPayload.values rows) :=
  ⟨by decide, normalize_indicator_one_row_per_record rsiPayload "rsi"
    (by decide)⟩

/-- C10: `transform_technical` is total on a record only when the record
has at least two keys. When a record has fewer than two keys,
`list(value.keys())[1]` raises an IndexError, even when the datetime
field parses (and hence any value needed for the output would be
obtainable); with two or more keys `transform_technical` never raises an
IndexError. -/
theorem technical_record_needs_two_keys (sym ind : String) (rec : RawRec) :
    (rec.length < 2 →
      (∃ ds, lookupA rec "datetime" = some ds ∧ (parseDatetime ds).isSome) →
      transform_technical_record sym ind rec = .error .indexError) ∧
    (2 ≤ rec.length →
      transform_technical_record sym ind rec ≠ .error .indexError) := by
  constructor
  · rintro hlen ⟨ds, hds, hts⟩
    obtain ⟨ts, hts2⟩ := Option.isSome_iff_exists.mp hts
    have hname : (rec.map Prod.fst).get? 1 = none :=
      List.get?_eq_none.mpr (by rw [List.length_map]; omega)
    unfold transform_technical_record
    simp only [hds, hts2, hname]
  · intro hlen h
    have hname : ∃ iname, (rec.map Prod.fst).get? 1 = some iname := by
      cases hn : (rec.map Prod.fst).get? 1 with
      | none =>
        have := List.get?_eq_none.mp hn
        rw [List.length_map] at this
        omega
      | some iname => exact ⟨iname, rfl⟩
    obtain ⟨iname, hname⟩ := hname
    unfold transform_technical_record at h
    split at h
    · exact NormError.noConfusion (Except.error.inj h)
    · rename_i ds hds
      split at h
      · exact NormError.noConfusion (Except.error.inj h)
      · rename_i ts hts
        split at h
        · rename_i hn
          rw [hname] at hn
          exact Option.noConfusion hn
        · rename_i iname2 hname2
          split at h
          · rename_i e he
            obtain ⟨-, he2⟩ := getF_error_shape rec ind e he
            rcases he2 with rfl | rfl
            · exact NormError.noConfusion (Except.error.inj h)
            · exact NormError.noConfusion (Except.error.inj h)
          · exact Except.noConfusion h

/-- Witness for C10: a record holding only a well-formed datetime fails
with an IndexError. -/
theorem technical_record_needs_two_keys_witness :
    oneKeyRec.length < 2 ∧
    transform_technical_record "SPY" "rsi" oneKeyRec =
      .error .indexError :=
  ⟨by decide, (technical_record_needs_two_keys "SPY" "rsi" oneKeyRec).1
    (by decide) ⟨"2024-01-01 09:30:00", by decide, by decide⟩⟩

/-- Counterexample to C3 as stated: `transform_hourly` succeeds on the
spec's SPY example, yet the records it hands on — which are the records
of the input payload itself, mutated in place — differ from the input
records, so the input payload is not left unchanged. -/
theorem transform_hourly_mutates_input_counterexample :
    (transform_hourly spyPayload).toOption.isSome = true ∧
    transform_hourly spyPayload ≠
      Except.ok (spyPayload.values.map asTyped) := by
  constructor
  · decide
  · decide

/-- C3 amended: `transform_technical` only reads its payload and both
transforms are deterministic functions of their input, but
`transform_hourly` mutates each input record in place: on success the
record keeps its keys in their original order with a `symbol` key
appended (when not already present), every field other than
symbol/datetime/open/high/low/close/volume keeps its original string
value, and the seven written fields hold the new values. -/
theorem transform_hourly_mutation_frame (sym : String) (rec : RawRec)
    (tr : TypedRec) (h : transform_hourly_record sym rec = .ok tr)
    (hsym : "symbol" ∉ rec.map Prod.fst) :
    tr.map Prod.fst = rec.map Prod.fst ++ ["symbol"] ∧
    (∀ k, k ∉ ["symbol", "datetime", "open", "high", "low", "close",
               "volume"] →
      lookupA tr k = (lookupA rec k).map PyVal.vstr) ∧
    lookupA tr "symbol" = some (PyVal.vstr sym) := by
  obtain ⟨ds, ts, o, hi, lo, c, v, hds, hts, ho, hh, hl, hc, hvv, rfl⟩ :=
    transform_hourly_record_ok_iff.mp h
  have memOf : ∀ k q, (lookupA rec k).bind parseFloat = some q →
      k ∈ rec.map Prod.fst := by
    intro k q hq
    obtain ⟨s, hs, -⟩ := Option.bind_eq_some.mp hq
    exact lookupA_isSome_mem _ _ (by simp [hs])
  have hmemd : "datetime" ∈ rec.map Prod.fst :=
    lookupA_isSome_mem _ _ (by simp [hds])
  have hmemo : "open" ∈ rec.map Prod.fst :=
    memOf _ _ ((getF_ok_iff _ _ _).mp ho)
  have hmemh : "high" ∈ rec.map Prod.fst :=
    memOf _ _ ((getF_ok_iff _ _ _).mp hh)
  have hmeml : "low" ∈ rec.map Prod.fst :=
    memOf _ _ ((getF_ok_iff _ _ _).mp hl)
  have hmemc : "close" ∈ rec.map Prod.fst :=
    memOf _ _ ((getF_ok_iff _ _ _).mp hc)
  have hmemv : "volume" ∈ rec.map Prod.fst := by
    obtain ⟨s, hs, -⟩ := Option.bind_eq_some.mp ((getI_ok_iff _ _ _).mp hvv)
    exact lookupA_isSome_mem _ _ (by simp [hs])
  have k1 : (dictSet (asTyped rec) "symbol" (PyVal.vstr sym)).map Prod.fst =
      rec.map Prod.fst ++ ["symbol"] := by
    rw [keys_dictSet_of_not_mem _ _ _ (by rw [keys_asTyped]; exact hsym),
        keys_asTyped]
  have memStep : ∀ (r : TypedRec) (k : String) (val : PyVal),
      r.map Prod.fst = rec.map Prod.fst ++ ["symbol"] →
      k ∈ rec.map Prod.fst →
      (dictSet r k val).map Prod.fst = rec.map Prod.fst ++ ["symbol"] := by
    intro r k val hr hk
    rw [keys_dictSet_of_mem _ _ _ (by rw [hr]; exact List.mem_append_left _ hk),
        hr]
  have k7 : (mutatedRec sym rec ts o hi lo c v).map Prod.fst =
      rec.map Prod.fst ++ ["symbol"] := by
    unfold mutatedRec
    exact memStep _ _ _ (memStep _ _ _ (memStep _ _ _ (memStep _ _ _
      (memStep _ _ _ (memStep _ _ _ k1 hmemd) hmemo) hmemh) hmeml) hmemc)
      hmemv
  refine ⟨k7, ?_, ?_⟩
  · intro k hk
    simp only [List.mem_cons, List.not_mem_nil, or_false, not_or] at hk
    obtain ⟨n1, n2, n3, n4, n5, n6, n7⟩ := hk
    unfold mutatedRec
    rw [lookupA_dictSet_ne _ _ n7, lookupA_dictSet_ne _ _ n6,
        lookupA_dictSet_ne _ _ n5, lookupA_dictSet_ne _ _ n4,
        lookupA_dictSet_ne _ _ n3, lookupA_dictSet_ne _ _ n2,
        lookupA_dictSet_ne _ _ n1, lookupA_asTyped]
  · unfold mutatedRec
    rw [lookupA_dictSet_ne _ _ (by decide), lookupA_dictSet_ne _ _ (by decide),
        lookupA_dictSet_ne _ _ (by decide), lookupA_dictSet_ne _ _ (by decide),
        lookupA_dictSet_ne _ _ (by decide), lookupA_dictSet_ne _ _ (by decide),
        lookupA_dictSet_self]

/-- Witness for the amended C3 at the SPY example record. -/
theorem transform_hourly_mutation_frame_witness :
    transform_hourly_record "SPY" spyRec =
      .ok (mutatedRec "SPY" spyRec ⟨2024, 1, 1, 9, 30, 0⟩
        (PyFloat.fin (mkRat 4701 10)) (PyFloat.fin 471)
        (PyFloat.fin (mkRat 4698 10)) (PyFloat.fin (mkRat 4705 10)) 1000000) ∧
    "symbol" ∉ spyRec.map Prod.fst ∧
    ((mutatedRec "SPY" spyRec ⟨2024, 1, 1, 9, 30, 0⟩
        (PyFloat.fin (mkRat 4701 10)) (PyFloat.fin 471)
        (PyFloat.fin (mkRat 4698 10)) (PyFloat.fin (mkRat 4705 10)) 1000000).map Prod.fst =
      spyRec.map Prod.fst ++ ["symbol"] ∧
    (∀ k, k ∉ ["symbol", "datetime", "open", "high", "low", "close",
               "volume"] →
      lookupA (mutatedRec "SPY" spyRec ⟨2024, 1, 1, 9, 30, 0⟩
        (PyFloat.fin (mkRat 4701 10)) (PyFloat.fin 471)
        (PyFloat.fin (mkRat 4698 10)) (PyFloat.fin (mkRat 4705 10)) 1000000) k =
        (lookupA spyRec k).map PyVal.vstr) ∧
    lookupA (mutatedRec "SPY" spyRec ⟨2024, 1, 1, 9, 30, 0⟩
        (PyFloat.fin (mkRat 4701 10)) (PyFloat.fin 471)
        (PyFloat.fin (mkRat 4698 10)) (PyFloat.fin (mkRat 4705 10)) 1000000) "symbol" =
      some (PyVal.vstr "SPY")) :=
  ⟨by decide, by decide,
   transform_hourly_mutation_frame "SPY" spyRec _ (by decide) (by decide)⟩

theorem cast_ohlcv_cases (sym : String) (rec : RawRec) (ts : Timestamp) :
    (validAllNum rec = true ∧ ∃ o hi lo c v,
      cast_ohlcv sym rec ts = .ok (mutatedRec sym rec ts o hi lo c v)) ∨
    (validAllNum rec = false ∧ ∃ e,
      cast_ohlcv sym rec ts = .error e ∧ isFieldErr e = true) := by
  rcases hgo : getF rec "open" with e | o
  · obtain ⟨hbind, hsh⟩ := getF_error_shape _ _ _ hgo
    refine .inr ⟨by simp [validAllNum, hbind], e,
      by unfold cast_ohlcv; rw [hgo], ?_⟩
    rcases hsh with rfl | rfl <;> decide
  · rcases hgh : getF rec "high" with e | hi
    · obtain ⟨hbind, hsh⟩ := getF_error_shape _ _ _ hgh
      refine .inr ⟨by simp [validAllNum, hbind], e,
        by unfold cast_ohlcv; rw [hgo, hgh], ?_⟩
      rcases hsh with rfl | rfl <;> decide
    · rcases hgl : getF rec "low" with e | lo
      · obtain ⟨hbind, hsh⟩ := getF_error_shape _ _ _ hgl
        refine .inr ⟨by simp [validAllNum, hbind], e,
          by unfold cast_ohlcv; rw [hgo, hgh, hgl], ?_⟩
        rcases hsh with rfl | rfl <;> decide
      · rcases hgc : getF rec "close" with e | c
        · obtain ⟨hbind, hsh⟩ := getF_error_shape _ _ _ hgc
          refine .inr ⟨by simp [validAllNum, hbind], e,
            by unfold cast_ohlcv; rw [hgo, hgh, hgl, hgc], ?_⟩
          rcases hsh with rfl | rfl <;> decide
        · rcases hgv : getI rec "volume" with e | v
          · obtain ⟨hbind, hsh⟩ := getI_error_shape _ _ _ hgv
            refine .inr ⟨by simp [validAllNum, hbind], e,
              by unfold cast_ohlcv; rw [hgo, hgh, hgl, hgc, hgv], ?_⟩
            rcases hsh with rfl | rfl <;> decide
          · refine .inl ⟨?_, o, hi, lo, c, v,
              by unfold cast_ohlcv; rw [hgo, hgh, hgl, hgc, hgv]⟩
            simp [validAllNum, (getF_ok_iff _ _ _).mp hgo,
              (getF_ok_iff _ _ _).mp hgh, (getF_ok_iff _ _ _).mp hgl,
              (getF_ok_iff _ _ _).mp hgc, (getI_ok_iff _ _ _).mp hgv]

/-- Counterexample to C4 as stated, in both directions of its iffs.
First, a record whose datetime string is malformed and whose numeric
fields are all missing fails with a ParseError, not with a
TypeError equivalent — so "fails with a TypeError-equivalent error iff
some numeric field is missing or non-numeric" is false (its right-hand
side holds, its left does not). Second, the datetime string
`2024-1-1 9:30:00` does not match the exact format YYYY-MM-DD HH:MM:SS,
yet `strptime` accepts it, and a record carrying it together with
Python-accepted numeric strings (`1e5`, ` 12 `, `1_000`) normalizes
successfully — so "fails with a ParseError iff the datetime string does
not match the exact format" is false as well. -/
theorem hourly_error_taxonomy_counterexample :
    (transform_hourly_record "SPY" badRec = .error .parseError ∧
     validAllNum badRec = false ∧
     failsWith (transform_hourly_record "SPY" badRec) isFieldErr =
       false) ∧
    (parseDatetime "2024-1-1 9:30:00" = some ⟨2024, 1, 1, 9, 30, 0⟩ ∧
     (transform_hourly_record "SPY" lenientRec).toOption.isSome =
       true) := by
  refine ⟨⟨by decide, by decide, by decide⟩, by decide, by decide⟩

/-- C4 amended: the checks are ordered as in the source and the accept
boundaries are those of the Python standard library. For a record with
a datetime entry, normalization fails with a ParseError iff
`strptime(.., "%Y-%m-%d %H:%M:%S")` rejects the datetime string —
strptime is lenient, accepting one-or-two-digit
month/day/hour/minute/second, a space-padded day and whitespace runs at
the format's space, while rejecting year 0 and out-of-range calendar
values; *for records whose datetime strptime accepts*, it fails with a
TypeError-equivalent error (KeyError or ValueError on a numeric field)
iff some of open/high/low/close/volume is missing or rejected by
`float()`/`int()` — which accept signs, surrounding whitespace,
underscores between digits, scientific notation and inf/nan; and it
succeeds iff the datetime is accepted and all five numeric fields
convert. -/
theorem hourly_error_taxonomy_ordered (sym : String) (rec : RawRec)
    (ds : String) (hds : lookupA rec "datetime" = some ds) :
    (transform_hourly_record sym rec = .error .parseError ↔
      parseDatetime ds = none) ∧
    ((parseDatetime ds).isSome →
      (failsWith (transform_hourly_record sym rec) isFieldErr = true ↔
        validAllNum rec = false)) ∧
    ((∃ tr, transform_hourly_record sym rec = .ok tr) ↔
      ((parseDatetime ds).isSome ∧ validAllNum rec = true)) := by
  cases hts : parseDatetime ds with
  | none =>
    have hT : transform_hourly_record sym rec = .error .parseError := by
      unfold transform_hourly_record
      simp only [hds, hts]
    refine ⟨by simp [hT], by simp [hts], by simp [hT, hts]⟩
  | some ts =>
    have hT : transform_hourly_record sym rec = cast_ohlcv sym rec ts := by
      unfold transform_hourly_record
      simp only [hds, hts]
    rcases cast_ohlcv_cases sym rec ts with
      ⟨hva, o, hi, lo, c, v, hok⟩ | ⟨hva, e, herr, hfe⟩
    · refine ⟨?_, ?_, ?_⟩
      · rw [hT, hok]
        simp [hts]
      · intro
        rw [hT, hok]
        simp [failsWith, hva]
      · rw [hT, hok]
        simp [hts, hva]
    · refine ⟨?_, ?_, ?_⟩
      · rw [hT, herr]
        constructor
        · intro h2
          have h3 := Except.error.inj h2
          rw [h3] at hfe
          exact absurd hfe (by decide)
        · intro hnone
          exact Option.noConfusion hnone
      · intro
        rw [hT, herr]
        simp [failsWith, hfe, hva]
      · rw [hT, herr]
        simp [hva]

/-- Witness for the amended C4 at the SPY example record: the datetime
parses, all numeric fields decode, and normalization succeeds. -/
theorem hourly_error_taxonomy_ordered_witness :
    lookupA spyRec "datetime" = some "2024-01-01 09:30:00" ∧
    ((transform_hourly_record "SPY" spyRec = .error .parseError ↔
      parseDatetime "2024-01-01 09:30:00" = none) ∧
    ((parseDatetime "2024-01-01 09:30:00").isSome →
      (failsWith (transform_hourly_record "SPY" spyRec) isFieldErr = true ↔
        validAllNum spyRec = false)) ∧
    ((∃ tr, transform_hourly_record "SPY" spyRec = .ok tr) ↔
      ((parseDatetime "2024-01-01 09:30:00").isSome ∧
        validAllNum spyRec = true))) :=
  ⟨by decide, hourly_error_taxonomy_ordered "SPY" spyRec
    "2024-01-01 09:30:00" (by decide)⟩

theorem create_hourly_table_rows (db : DB) :
    (create_hourly_table db).hourlyRows = db.hourlyRows := by
  unfold create_hourly_table
  split <;> rfl

theorem create_hourly_table_isSome (db : DB) :
    (create_hourly_table db).hourlyTab.isSome = true := by
  unfold create_hourly_table
  split
  · rename_i hdb
    exact hdb
  · rfl

theorem create_technical_table_isSome (db : DB) :
    (create_technical_table db).technicalTab.isSome = true := by
  unfold create_technical_table
  split
  · rename_i hdb
    exact hdb
  · rfl

theorem create_technical_table_rows (db : DB) :
    (create_technical_table db).technicalRows = db.technicalRows := by
  unfold create_technical_table
  split <;> rfl

/-- C5: a payload with an empty `values` sequence makes both transforms
return an empty row sequence without error, and the persist call on an
empty row list succeeds, inserts zero rows, and closes its connection. -/
theorem empty_values_empty_rows_noop_persist (p : Payload) (ind : String)
    (db : DB) (h : p.values = []) :
    transform_hourly p = .ok [] ∧
    transform_technical p ind = .ok [] ∧
    (load_hourly db []).result = .ok () ∧
    (load_hourly db []).db.hourlyRows = db.hourlyRows ∧
    (load_hourly db []).connReleased = true ∧
    (load_technical db []).result = .ok () ∧
    (load_technical db []).db.technicalRows = db.technicalRows ∧
    (load_technical db []).connReleased = true := by
  refine ⟨by simp [transform_hourly, h, mapE],
    by simp [transform_technical, h, mapE], ?_, ?_, ?_, ?_, ?_, ?_⟩ <;>
    simp [load_hourly, load_technical, insertBars, insertInds,
      create_hourly_table_rows, create_technical_table_rows]

/-- Witness for C5 at an empty payload and an empty database. -/
theorem empty_values_empty_rows_noop_persist_witness :
    emptyPayload.values = [] ∧
    (transform_hourly emptyPayload = .ok [] ∧
    transform_technical emptyPayload "rsi" = .ok [] ∧
    (load_hourly emptyDB []).result = .ok () ∧
    (load_hourly emptyDB []).db.hourlyRows = emptyDB.hourlyRows ∧
    (load_hourly emptyDB []).connReleased = true ∧
    (load_technical emptyDB []).result = .ok () ∧
    (load_technical emptyDB []).db.technicalRows = emptyDB.technicalRows ∧
    (load_technical emptyDB []).connReleased = true) :=
  ⟨rfl, empty_values_empty_rows_noop_persist emptyPayload "rsi" emptyDB rfl⟩

/-- C6: `create_hourly_table` and `create_technical_table` are
idempotent — calling either twice equals calling it once — and when the
table already exists (whatever its structure) the call leaves the
database exactly as it is: the check-then-create never creates
unconditionally. -/
theorem ensure_schema_idempotent :
    (∀ db : DB,
      create_hourly_table (create_hourly_table db) =
        create_hourly_table db ∧
      create_technical_table (create_technical_table db) =
        create_technical_table db) ∧
    (∀ (db : DB) (t : TableSchema), db.hourlyTab = some t →
      create_hourly_table db = db) ∧
    (∀ (db : DB) (t : TableSchema), db.technicalTab = some t →
      create_technical_table db = db) := by
  refine ⟨fun db => ⟨?_, ?_⟩, fun db t ht => ?_, fun db t ht => ?_⟩
  · by_cases hdb : db.hourlyTab.isSome <;> simp [create_hourly_table, hdb]
  · by_cases hdb : db.technicalTab.isSome <;>
      simp [create_technical_table, hdb]
  · simp [create_hourly_table, ht]
  · simp [create_technical_table, ht]

/-- Witness for C6 at a database where both tables exist. -/
theorem ensure_schema_idempotent_witness :
    fullDB.hourlyTab = some hourlySchema ∧
    create_hourly_table fullDB = fullDB ∧
    fullDB.technicalTab = some technicalSchema ∧
    create_technical_table fullDB = fullDB :=
  ⟨rfl, ensure_schema_idempotent.2.1 fullDB hourlySchema rfl,
   rfl, ensure_schema_idempotent.2.2 fullDB technicalSchema rfl⟩

theorem insertBars_ok_append :
    ∀ (rows base out : List BarRow),
      insertBars base rows = .ok out → out = base ++ rows := by
  intro rows
  induction rows with
  | nil =>
    intro base out h
    unfold insertBars at h
    injection h with h2
    simp [← h2]
  | cons r rs ih =>
    intro base out h
    unfold insertBars at h
    cases hin : insertBar base r with
    | error e => rw [hin] at h; exact Except.noConfusion h
    | ok rows2 =>
      rw [hin] at h
      have h2 := ih rows2 out h
      unfold insertBar at hin
      split at hin
      · exact Except.noConfusion hin
      · injection hin with h3
        rw [h2, ← h3]
        simp

theorem insertInds_ok_append :
    ∀ (rows base out : List IndicatorRow),
      insertInds base rows = .ok out → out = base ++ rows := by
  intro rows
  induction rows with
  | nil =>
    intro base out h
    unfold insertInds at h
    injection h with h2
    simp [← h2]
  | cons r rs ih =>
    intro base out h
    unfold insertInds at h
    cases hin : insertInd base r with
    | error e => rw [hin] at h; exact Except.noConfusion h
    | ok rows2 =>
      rw [hin] at h
      have h2 := ih rows2 out h
      unfold insertInd at hin
      split at hin
      · exact Except.noConfusion hin
      · injection hin with h3
        rw [h2, ← h3]
        simp

/-- Counterexample to C7 as stated: inserting a batch with a duplicate
primary key makes the batched INSERT fail, and on that exit path the
`close()` calls of main.py lines 150-151 are never reached — the
connection and cursor are not released. -/
theorem load_hourly_release_counterexample :
    (load_hourly emptyDB [⟨"SPY", ⟨2024, 1, 1, 9, 30, 0⟩, PyFloat.fin 1, PyFloat.fin 1,
       PyFloat.fin 1, PyFloat.fin 1, 1⟩,
                          ⟨"SPY", ⟨2024, 1, 1, 9, 30, 0⟩, PyFloat.fin 1, PyFloat.fin 1,
       PyFloat.fin 1, PyFloat.fin 1, 1⟩]
      ).result = .error .constraintViolation ∧
    (load_hourly emptyDB [⟨"SPY", ⟨2024, 1, 1, 9, 30, 0⟩, PyFloat.fin 1, PyFloat.fin 1,
       PyFloat.fin 1, PyFloat.fin 1, 1⟩,
                          ⟨"SPY", ⟨2024, 1, 1, 9, 30, 0⟩, PyFloat.fin 1, PyFloat.fin 1,
       PyFloat.fin 1, PyFloat.fin 1, 1⟩]
      ).connReleased = false := by
  refine ⟨by decide, by decide⟩

/-- C7 amended: each load opens a connection, ensures the schema, runs
one batched INSERT and commits; the connection and cursor are released
on the success path only. When any insert in the batch fails, the
exception propagates before the `close()` calls, the connection is not
explicitly released, and — since nothing was committed — the database is
unchanged (all-or-nothing). -/
theorem load_connection_release_behavior :
    (∀ (db : DB) (rows : List BarRow),
      ((load_hourly db rows).result = .ok () →
        (load_hourly db rows).connReleased = true ∧
        (load_hourly db rows).db.hourlyTab.isSome = true ∧
        (load_hourly db rows).db.hourlyRows = db.hourlyRows ++ rows) ∧
      (∀ e, (load_hourly db rows).result = .error e →
        (load_hourly db rows).connReleased = false ∧
        (load_hourly db rows).db = db)) ∧
    (∀ (db : DB) (rows : List IndicatorRow),
      ((load_technical db rows).result = .ok () →
        (load_technical db rows).connReleased = true ∧
        (load_technical db rows).db.technicalTab.isSome = true ∧
        (load_technical db rows).db.technicalRows =
          db.technicalRows ++ rows) ∧
      (∀ e, (load_technical db rows).result = .error e →
        (load_technical db rows).connReleased = false ∧
        (load_technical db rows).db = db)) := by
  constructor
  · intro db rows
    unfold load_hourly
    cases hins : insertBars (create_hourly_table db).hourlyRows rows with
    | error e =>
      exact ⟨fun h => Except.noConfusion h, fun e2 h => ⟨rfl, rfl⟩⟩
    | ok rs =>
      refine ⟨fun h => ⟨rfl, create_hourly_table_isSome db, ?_⟩,
        fun e2 h => Except.noConfusion h⟩
      show rs = db.hourlyRows ++ rows
      rw [insertBars_ok_append rows _ rs hins, create_hourly_table_rows]
  · intro db rows
    unfold load_technical
    cases hins : insertInds (create_technical_table db).technicalRows rows
      with
    | error e =>
      exact ⟨fun h => Except.noConfusion h, fun e2 h => ⟨rfl, rfl⟩⟩
    | ok rs =>
      refine ⟨fun h => ⟨rfl, create_technical_table_isSome db, ?_⟩,
        fun e2 h => Except.noConfusion h⟩
      show rs = db.technicalRows ++ rows
      rw [insertInds_ok_append rows _ rs hins, create_technical_table_rows]

/-- Witness for the amended C7: loading one bar row into an empty
database succeeds, releases the connection, ensures the table, and
appends the row. -/
theorem load_connection_release_behavior_witness :
    (load_hourly emptyDB [⟨"SPY", ⟨2024, 1, 1, 9, 30, 0⟩, PyFloat.fin 1, PyFloat.fin 1,
       PyFloat.fin 1, PyFloat.fin 1, 1⟩]
      ).result = .ok () ∧
    ((load_hourly emptyDB [⟨"SPY", ⟨2024, 1, 1, 9, 30, 0⟩, PyFloat.fin 1, PyFloat.fin 1,
       PyFloat.fin 1, PyFloat.fin 1, 1⟩]
      ).connReleased = true ∧
    (load_hourly emptyDB [⟨"SPY", ⟨2024, 1, 1, 9, 30, 0⟩, PyFloat.fin 1, PyFloat.fin 1,
       PyFloat.fin 1, PyFloat.fin 1, 1⟩]
      ).db.hourlyTab.isSome = true ∧
    (load_hourly emptyDB [⟨"SPY", ⟨2024, 1, 1, 9, 30, 0⟩, PyFloat.fin 1, PyFloat.fin 1,
       PyFloat.fin 1, PyFloat.fin 1, 1⟩]
      ).db.hourlyRows =
      emptyDB.hourlyRows ++ [⟨"SPY", ⟨2024, 1, 1, 9, 30, 0⟩, PyFloat.fin 1, PyFloat.fin 1,
       PyFloat.fin 1, PyFloat.fin 1, 1⟩]) :=
  ⟨by decide,
   (load_connection_release_behavior.1 emptyDB
     [⟨"SPY", ⟨2024, 1, 1, 9, 30, 0⟩, PyFloat.fin 1, PyFloat.fin 1,
       PyFloat.fin 1, PyFloat.fin 1, 1⟩]).1 (by decide)⟩

theorem barStage_eq (ts : List String) :
    barStage ts =
      ts.flatMap (fun t => [Ev.fetchBars t, Ev.normBars t, Ev.storeBars t]) := by
  induction ts with
  | nil => rfl
  | cons t ts ih => simp [barStage, ih]

theorem barStage_no_pause (ts : List String) :
    (barStage ts).countP isPause = 0 := by
  induction ts with
  | nil => rfl
  | cons t ts ih => simp [barStage, List.countP_cons, isPause, ih]

theorem barStage_no_long (ts : List String) :
    (barStage ts).count (Ev.pause 100) = 0 := by
  induction ts with
  | nil => rfl
  | cons t ts ih => simp [barStage, List.count_cons, ih]

theorem indStageFor_eq (t : String) (is : List String) :
    indStageFor t is =
      is.flatMap (fun i => [Ev.fetchInd t i, Ev.normInd t i,
        Ev.storeInd t i, Ev.pause 60]) := by
  induction is with
  | nil => rfl
  | cons i is ih => simp [indStageFor, ih]

theorem indStage_eq (ts is : List String) :
    indStage ts is =
      ts.flatMap (fun t => is.flatMap (fun i =>
        [Ev.fetchInd t i, Ev.normInd t i, Ev.storeInd t i,
         Ev.pause 60])) := by
  induction ts with
  | nil => rfl
  | cons t ts ih => simp [indStage, ih, indStageFor_eq]

theorem indStageFor_no_long (t : String) (is : List String) :
    (indStageFor t is).count (Ev.pause 100) = 0 := by
  induction is with
  | nil => rfl
  | cons i is ih => simp [indStageFor, List.count_cons, ih]

theorem indStage_no_long (ts is : List String) :
    (indStage ts is).count (Ev.pause 100) = 0 := by
  induction ts with
  | nil => rfl
  | cons t ts ih =>
    simp [indStage, List.count_append, indStageFor_no_long, ih]

/-- C8: the driver trace is exactly — the bar stage, one
fetch/normalize/store triple per ticker in list order with no sleep
anywhere in that stage, then exactly one long pause
(`time.sleep(100)`), then the cross product of tickers × indicators in
nested list order, one fetch/normalize/store triple per pair with a
short pause (`time.sleep(60)`) after every pair. -/
theorem driver_stage_ordering (ts is : List String) :
    driverTrace ts is =
      ts.flatMap (fun t => [Ev.fetchBars t, Ev.normBars t, Ev.storeBars t]) ++
      [Ev.pause 100] ++
      ts.flatMap (fun t => is.flatMap (fun i =>
        [Ev.fetchInd t i, Ev.normInd t i, Ev.storeInd t i,
         Ev.pause 60])) ∧
    (barStage ts).countP isPause = 0 ∧
    (driverTrace ts is).count (Ev.pause 100) = 1 := by
  refine ⟨?_, barStage_no_pause ts, ?_⟩
  · unfold driverTrace
    rw [barStage_eq, indStage_eq]
  · unfold driverTrace
    simp [List.count_append, barStage_no_long, indStage_no_long,
      List.count_cons]

theorem forall2_mem_right {α β : Type} {R : α → β → Prop} :
    ∀ {l1 : List α} {l2 : List β}, List.Forall₂ R l1 l2 → ∀ {b}, b ∈ l2 →
      ∃ a ∈ l1, R a b := by
  intro l1 l2 h
  induction h with
  | nil =>
    intro b hb
    simp at hb
  | cons hR hF ih =>
    intro b hb
    rcases List.mem_cons.mp hb with rfl | hb2
    · exact ⟨_, List.mem_cons_self _ _, hR⟩
    · obtain ⟨a, ha, hab⟩ := ih hb2
      exact ⟨a, List.mem_cons_of_mem _ ha, hab⟩

/-- Counterexample to C9 as stated: Python `int` accepts a signed
string, so a payload whose volume field is `"-5"` normalizes
successfully and yields a BarRow with a negative volume. -/
theorem volume_nonneg_counterexample :
    (transform_hourly negVolPayload).map (List.map barRowOf) =
      .ok [some ⟨"SPY", ⟨2024, 1, 1, 9, 30, 0⟩, PyFloat.fin 1,
        PyFloat.fin 1, PyFloat.fin 1, PyFloat.fin 1, -5⟩] ∧
    (-5 : Int) < 0 := by
  refine ⟨by decide, by decide⟩

/-- C9 amended: a BarRow's volume equals whatever integer the record's
volume string decodes to, which may be negative; the rows produced by
`transform_hourly` all have non-negative volume exactly when every input
record's volume string decodes to a non-negative integer, which the code
itself does not enforce. -/
theorem volume_nonneg_of_unsigned_inputs (p : Payload)
    (hv : ∀ rec ∈ p.values, ∀ v : Int,
      (lookupA rec "volume").bind parseInt = some v → 0 ≤ v)
    (trs : List TypedRec) (h : transform_hourly p = .ok trs) :
    ∀ tr ∈ trs, ∀ row, barRowOf tr = some row → 0 ≤ row.volume := by
  intro tr htr row hrow
  have hF := mapE_ok_forall2 h
  obtain ⟨rec, hrec, hrel⟩ := forall2_mem_right hF htr
  obtain ⟨ds, ts2, o, hi, lo, c, v, hds, hts, ho, hh, hl, hc, hvv, rfl⟩ :=
    transform_hourly_record_ok_iff.mp hrel
  rw [barRowOf_mutatedRec] at hrow
  injection hrow with h2
  have h4 := hv rec hrec v ((getI_ok_iff _ _ _).mp hvv)
  rw [← h2]
  exact h4

/-- Witness for the amended C9 at the SPY example: its volume string is
unsigned, so the produced row has non-negative volume. -/
theorem volume_nonneg_of_unsigned_inputs_witness :
    (∀ rec ∈ spyPayload.values, ∀ v : Int,
      (lookupA rec "volume").bind parseInt = some v → 0 ≤ v) ∧
    (∀ tr ∈ [mutatedRec "SPY" spyRec ⟨2024, 1, 1, 9, 30, 0⟩
        (PyFloat.fin (mkRat 4701 10)) (PyFloat.fin 471)
        (PyFloat.fin (mkRat 4698 10)) (PyFloat.fin (mkRat 4705 10)) 1000000],
      ∀ row, barRowOf tr = some row → 0 ≤ row.volume) := by
  have hA : ∀ rec ∈ spyPayload.values, ∀ v : Int,
      (lookupA rec "volume").bind parseInt = some v → 0 ≤ v := by
    intro rec hrec v hveq
    simp only [spyPayload, List.mem_singleton] at hrec
    subst hrec
    have h5 : (lookupA [("datetime", "2024-01-01 09:30:00"),
      ("open", "470.1"), ("high", "471.0"), ("low", "469.8"),
      ("close", "470.5"), ("volume", "1000000")] "volume").bind parseInt =
      some 1000000 := by decide
    rw [h5] at hveq
    injection hveq with h2
    rw [← h2]
    decide
  exact ⟨hA, volume_nonneg_of_unsigned_inputs spyPayload hA _ (by decide)⟩
